import Mathlib

/-!
Shallow embedding of the quiz-session state machine and scoring engine of
`src/streamlit_app.py` (class `QuizManager` and the option-display logic of
`display_quiz_question`), together with proofs checking the specification's
claims against it.

Modelling conventions:
* Python dicts that are used as ordered key/value stores (`chapter_questions`,
  `chapter_stats`, `option_mapping`) are modelled as association lists in
  insertion order, matching Python 3.7+ dict semantics.
* `random.shuffle` is modelled by an explicit `shuffle` function parameter;
  theorems that depend on it hypothesise that it permutes its input.
* `datetime.now()` timestamps and the `start_time` field are external I/O and
  carry no information the claims test; they are omitted from the model.
* A possibly-`None` Python string is modelled as `Option String`; Python
  `None == s` is `False` for every string `s`, which the model reflects by
  comparing at `Option String`.
-/

namespace QuizApp

/-- A validated question record, as built by `QuizManager.load_csv`. -/
structure Question where
  chapter : String
  question_text : String
  reasoning : String
  correct_answer : String
  alternatives : List String
deriving Repr, DecidableEq

/-- Per-chapter statistics entry `{'asked': _, 'correct': _}`. -/
structure ChapterStat where
  asked : Nat
  correct : Nat
deriving Repr, DecidableEq

/-- A record appended to `missed_questions`: the question snapshot plus the
user's answer and the 1-based question number. -/
structure MissedQuestion where
  question : Question
  user_answer : Option String
  question_number : Nat
deriving Repr, DecidableEq

/-- The `current_stats` accumulator of `QuizManager`. -/
structure Stats where
  total_questions : Nat
  correct_answers : Nat
  chapter_stats : List (String × ChapterStat)
  missed_questions : List MissedQuestion
  class_name : String
  selected_chapters : List String
deriving Repr, DecidableEq

/-- The fresh accumulator `start_quiz` installs before selecting questions
(`start_time` is external I/O and omitted). -/
def resetStats (class_name : String) (selected_chapters : List String) : Stats :=
  { total_questions := 0
    correct_answers := 0
    chapter_stats := []
    missed_questions := []
    class_name := class_name
    selected_chapters := selected_chapters }

/-- Increment of one chapter's entry: `asked` always, `correct` iff correct. -/
def bumpStat (s : ChapterStat) (is_correct : Bool) : ChapterStat :=
  { asked := s.asked + 1
    correct := s.correct + (if is_correct then 1 else 0) }

/-- The `chapter_stats` update of `submit_answer`: create the entry with
`asked = 0, correct = 0` if the chapter is absent, then increment. -/
def updateChapterStats : List (String × ChapterStat) → String → Bool →
    List (String × ChapterStat)
  | [], c, is_correct => [(c, bumpStat ⟨0, 0⟩ is_correct)]
  | (c', s) :: rest, c, is_correct =>
    if c' = c then (c', bumpStat s is_correct) :: rest
    else (c', s) :: updateChapterStats rest c is_correct

/-- Model of `QuizManager.submit_answer`: compares the user answer with the correct
answer by exact string equality, updates the accumulator, returns
`is_correct`. -/
def submit_answer (stats : Stats) (question : Question)
    (user_answer : Option String) (question_number : Nat) : Stats × Bool :=
  let is_correct := user_answer == some question.correct_answer
  let stats' : Stats :=
    { stats with
      total_questions := stats.total_questions + 1
      correct_answers := stats.correct_answers + (if is_correct then 1 else 0)
      missed_questions :=
        if is_correct then stats.missed_questions
        else stats.missed_questions ++ [⟨question, user_answer, question_number⟩]
      chapter_stats := updateChapterStats stats.chapter_stats question.chapter is_correct }
  (stats', is_correct)

/-- An entry of `QuizManager.history` (timestamp omitted: external I/O). -/
structure HistoryEntry where
  class_name : String
  total_questions : Nat
  correct_answers : Nat
  percentage : ℚ
  missed_questions : Nat
  chapter_stats : List (String × ChapterStat)
  selected_chapters : List String
deriving Repr, DecidableEq

/-- Model of `QuizManager.save_quiz_session`: appends a snapshot of the accumulator to
the history iff at least one question was answered. -/
def save_quiz_session (stats : Stats) (history : List HistoryEntry) :
    List HistoryEntry × Bool :=
  if stats.total_questions > 0 then
    (history ++
      [{ class_name := stats.class_name
         total_questions := stats.total_questions
         correct_answers := stats.correct_answers
         percentage := (stats.correct_answers : ℚ) / (stats.total_questions : ℚ) * 100
         missed_questions := stats.missed_questions.length
         chapter_stats := stats.chapter_stats
         selected_chapters := stats.selected_chapters }], true)
  else (history, false)

/-- The union of the selected chapters' question lists, in chapter-selection
order, as built by the loop of `start_quiz`. -/
def collectQuestions (selected_chapters : List String)
    (chapter_questions : List (String × List Question)) : List Question :=
  selected_chapters.foldl
    (fun acc ch =>
      match List.lookup ch chapter_questions with
      | some qs => acc ++ qs
      | none => acc)
    []

/-- Model of `QuizManager.start_quiz`: resets the accumulator, collects the union of
the selected chapters' questions, fails if empty, else shuffles and truncates
to `num_questions`. The returned pair is the new accumulator and the result. -/
def start_quiz (stats : Stats) (class_name : String)
    (selected_chapters : List String) (num_questions : Nat)
    (chapter_questions : List (String × List Question))
    (shuffle : List Question → List Question) :
    Stats × Except String (List Question) :=
  let _ := stats
  let stats' := resetStats class_name selected_chapters
  let all_questions := collectQuestions selected_chapters chapter_questions
  if all_questions.isEmpty then
    (stats', Except.error "No questions available for selected chapters.")
  else
    (stats', Except.ok ((shuffle all_questions).take num_questions))

/-- Python's `str.strip()`: remove leading and trailing whitespace. Written
as structural recursion on the character list so that concrete instances
evaluate inside the kernel. -/
def pyStrip (s : String) : String :=
  ⟨((s.data.dropWhile Char.isWhitespace).reverse.dropWhile
      Char.isWhitespace).reverse⟩

/-- A parsed CSV data row as produced by `csv.DictReader`: an association
list from column name to cell text, in column order. A key absent from the
row models a `None` cell. -/
abbrev Row := List (String × String)

/-- The required column names checked by `load_csv`. -/
def required_columns : List String :=
  ["Chapter", "Question Text", "Reasoning",
   "Correct_Answer", "Alternative_1",
   "Alternative_2", "Alternative_3"]

/-- The per-field validity test of `load_csv`: a field is blank when it is
absent (`row.get(field)` is `None`), empty, or whitespace-only
(`str(row[field]).strip() == ''`). -/
def fieldBlank (row : Row) (f : String) : Bool :=
  match List.lookup f row with
  | none => true
  | some v => pyStrip v == ""

/-- A row survives validation when no required field is blank. -/
def validRow (row : Row) : Bool :=
  required_columns.all (fun f => !(fieldBlank row f))

/-- The `if not any(row.values()): continue` test: every cell is falsy. -/
def rowEmpty (row : Row) : Bool :=
  row.all (fun p => p.2 == "")

/-- Conversion of a surviving row into a question: every field is trimmed of
leading and trailing whitespace (`'.strip()'`). On a valid row every required
lookup is `some`, so the `getD ""` default is never used. -/
def mkQuestion (row : Row) : Question :=
  { chapter := pyStrip ((List.lookup "Chapter" row).getD "")
    question_text := pyStrip ((List.lookup "Question Text" row).getD "")
    reasoning := pyStrip ((List.lookup "Reasoning" row).getD "")
    correct_answer := pyStrip ((List.lookup "Correct_Answer" row).getD "")
    alternatives :=
      [pyStrip ((List.lookup "Alternative_1" row).getD ""),
       pyStrip ((List.lookup "Alternative_2" row).getD ""),
       pyStrip ((List.lookup "Alternative_3" row).getD "")] }

/-- The row loop of `load_csv`: skip entirely-empty rows, skip rows with a
blank required field, convert the rest in order. -/
def processRows : List Row → List Question
  | [] => []
  | row :: rest =>
    if rowEmpty row then processRows rest
    else if validRow row then mkQuestion row :: processRows rest
    else processRows rest

/-- Append a question to its chapter's group, creating the chapter at the end
on first occurrence — the `chapter_questions` dict loop of `load_csv`. -/
def insertQuestion : List (String × List Question) → Question →
    List (String × List Question)
  | [], q => [(q.chapter, [q])]
  | (c, l) :: rest, q =>
    if c = q.chapter then (c, l ++ [q]) :: rest
    else (c, l) :: insertQuestion rest q

/-- Grouping of the validated questions by chapter, preserving first-seen
chapter order and within-chapter question order. -/
def groupByChapter (qs : List Question) : List (String × List Question) :=
  qs.foldl insertQuestion []

/-- The failure results of `load_csv` relevant to a structurally parsed CSV
(`return False, message`): the schema failure carries the column names that
were actually found, mirroring the f-string interpolation of
`reader.fieldnames`. -/
inductive LoadError where
  | schemaError (found : List String)
  | noValidQuestions
deriving Repr, DecidableEq

/-- The human-readable message attached to each failure result. -/
def loadErrorMessage : LoadError → String
  | LoadError.schemaError found =>
    "CSV missing required columns. Found: [" ++ String.intercalate ", " found ++ "]"
  | LoadError.noValidQuestions => "No valid questions found in CSV file."

/-- Model of `QuizManager.load_csv` on a structurally parsed CSV, given its header
`fieldnames` and data `rows`: checks the required columns, validates and
converts the rows, fails if no valid question remains, else groups by
chapter. -/
def load_csv (fieldnames : List String) (rows : List Row) :
    Except LoadError (List (String × List Question)) :=
  if required_columns.all (fun c => fieldnames.contains c) then
    let questions := processRows rows
    if questions.isEmpty then Except.error LoadError.noValidQuestions
    else Except.ok (groupByChapter questions)
  else Except.error (LoadError.schemaError fieldnames)

/-- Total number of questions across all chapters of a loaded pool. -/
def totalQuestions (m : List (String × List Question)) : Nat :=
  (m.map (fun p => p.2.length)).sum

/-- Overwrite-or-append on the per-position option mapping:
`st.session_state.option_mapping[current_idx] = options`. -/
def setMapping : List (Nat × List String) → Nat → List String →
    List (Nat × List String)
  | [], pos, opts => [(pos, opts)]
  | (p, o) :: rest, pos, opts =>
    if p = pos then (p, opts) :: rest
    else (p, o) :: setMapping rest pos opts

/-- The option-display step of `display_quiz_question`: build the four
options (3 alternatives plus the correct answer), shuffle them, store the
result under the current position, and display it. Returns the updated
mapping and the displayed order. -/
def display_question_options (mapping : List (Nat × List String)) (pos : Nat)
    (question : Question) (shuffle : List String → List String) :
    List (Nat × List String) × List String :=
  let options := shuffle (question.alternatives ++ [question.correct_answer])
  (setMapping mapping pos options, options)

/-- Sum of the `asked` counters over all chapters of a stats table. -/
def sumAsked (l : List (String × ChapterStat)) : Nat :=
  (l.map (fun p => p.2.asked)).sum

/-- The `asked` counter recorded for one chapter (0 if absent). -/
def askedCount (l : List (String × ChapterStat)) (c : String) : Nat :=
  match List.lookup c l with
  | some s => s.asked
  | none => 0

/-- A full session's worth of submissions: each item is the question, the
user's answer, and the 1-based question number, fed to `submit_answer` in
order, as the submit loop of `display_quiz_question` does. -/
def runSession (stats : Stats) (subs : List (Question × Option String × Nat)) :
    Stats :=
  subs.foldl (fun st s => (submit_answer st s.1 s.2.1 s.2.2).1) stats

/-- Whether one submission compares equal to its question's correct answer. -/
def correctSub (s : Question × Option String × Nat) : Bool :=
  s.2.1 == some s.1.correct_answer

/-- Modelled from the spec: the spec's "first-seen order of chapters" for a
list of chapter names, used to compare the grouping built by `load_csv`
against the specified ordering. -/
def firstSeenOrder (l : List String) : List String :=
  l.foldl (fun acc c => if acc.contains c then acc else acc ++ [c]) []

/-- Concrete sample data (the spec's §8 example) used by witnesses and
counterexamples. -/
def sampleQuestion : Question :=
  { chapter := "Ch1", question_text := "Q1?", reasoning := "R1"
    correct_answer := "A", alternatives := ["B", "C", "D"] }

def sampleQuestion2 : Question :=
  { chapter := "Ch2", question_text := "Q2?", reasoning := "R2"
    correct_answer := "X", alternatives := ["Y", "Z", "W"] }

def sampleStats : Stats := resetStats "Biology" ["Ch1", "Ch2"]

def sampleSubs : List (Question × Option String × Nat) :=
  [(sampleQuestion, some "A", 1), (sampleQuestion2, some "Y", 2)]

def sampleChapters : List (String × List Question) :=
  [("Ch1", [sampleQuestion]), ("Ch2", [sampleQuestion2])]

def answeredStats : Stats :=
  (submit_answer sampleStats sampleQuestion (some "A") 1).1

def sampleRow1 : Row :=
  [("Chapter", "Ch1"), ("Question Text", "Q1?"), ("Reasoning", "R1"),
   ("Correct_Answer", "A"), ("Alternative_1", "B"), ("Alternative_2", "C"),
   ("Alternative_3", "D")]

def sampleRow2 : Row :=
  [("Chapter", "Ch2"), ("Question Text", "Q2?"), ("Reasoning", "R2"),
   ("Correct_Answer", "X"), ("Alternative_1", "Y"), ("Alternative_2", "Z"),
   ("Alternative_3", "W")]

/-- A row whose required `Reasoning` field is whitespace-only (blank). -/
def blankRow : Row :=
  [("Chapter", "Ch1"), ("Question Text", "Q3?"), ("Reasoning", "  "),
   ("Correct_Answer", "A"), ("Alternative_1", "B"), ("Alternative_2", "C"),
   ("Alternative_3", "D")]

/-- An option mapping as left by a first display of position 0 of
`sampleQuestion` under an identity shuffle. -/
def cachedMapping : List (Nat × List String) :=
  [(0, ["B", "C", "D", "A"])]

theorem sumAsked_updateChapterStats (l : List (String × ChapterStat))
    (c : String) (b : Bool) :
    sumAsked (updateChapterStats l c b) = sumAsked l + 1 := by
  induction l with
  | nil => simp [updateChapterStats, sumAsked, bumpStat]
  | cons hd tl ih =>
    obtain ⟨c', s⟩ := hd
    by_cases h : c' = c
    · simp [updateChapterStats, h, sumAsked, bumpStat]
      omega
    · simp only [updateChapterStats, if_neg h, sumAsked, List.map_cons, List.sum_cons]
      have := ih
      simp only [sumAsked] at this
      omega

theorem askedCount_updateChapterStats (l : List (String × ChapterStat))
    (c : String) (b : Bool) :
    askedCount (updateChapterStats l c b) c = askedCount l c + 1 := by
  induction l with
  | nil => simp [updateChapterStats, askedCount, bumpStat, List.lookup]
  | cons hd tl ih =>
    obtain ⟨c', s⟩ := hd
    by_cases h : c' = c
    · subst h
      simp [updateChapterStats, askedCount, bumpStat, List.lookup]
    · have hne : (c == c') = false := by
        simp [beq_iff_eq]
        exact fun hc => h hc.symm
      simp only [updateChapterStats, if_neg h, askedCount, List.lookup, hne]
      exact ih

theorem submit_answer_total (st : Stats) (q : Question) (a : Option String)
    (n : Nat) :
    (submit_answer st q a n).1.total_questions = st.total_questions + 1 := rfl

theorem submit_answer_correct_count (st : Stats) (q : Question)
    (a : Option String) (n : Nat) :
    (submit_answer st q a n).1.correct_answers
      = st.correct_answers + (if a == some q.correct_answer then 1 else 0) := rfl

theorem submit_answer_missed_len (st : Stats) (q : Question) (a : Option String)
    (n : Nat) :
    (submit_answer st q a n).1.missed_questions.length
      = st.missed_questions.length
        + (if a == some q.correct_answer then 0 else 1) := by
  cases h : (a == some q.correct_answer) <;>
    simp [submit_answer, h]

theorem submit_answer_sumAsked (st : Stats) (q : Question) (a : Option String)
    (n : Nat) :
    sumAsked (submit_answer st q a n).1.chapter_stats
      = sumAsked st.chapter_stats + 1 :=
  sumAsked_updateChapterStats st.chapter_stats q.chapter _

theorem countP_not_add_countP (p : α → Bool) (l : List α) :
    l.countP (fun x => !(p x)) + l.countP p = l.length := by
  induction l with
  | nil => simp
  | cons hd tl ih =>
    cases h : p hd <;> simp [List.countP_cons, h] <;> omega

theorem runSession_total (st : Stats)
    (subs : List (Question × Option String × Nat)) :
    (runSession st subs).total_questions = st.total_questions + subs.length := by
  induction subs generalizing st with
  | nil => simp [runSession]
  | cons hd tl ih =>
    simp only [runSession, List.foldl_cons] at ih ⊢
    rw [ih, submit_answer_total]
    simp only [List.length_cons]
    omega

theorem runSession_correct (st : Stats)
    (subs : List (Question × Option String × Nat)) :
    (runSession st subs).correct_answers
      = st.correct_answers + subs.countP correctSub := by
  induction subs generalizing st with
  | nil => simp [runSession]
  | cons hd tl ih =>
    simp only [runSession, List.foldl_cons, List.countP_cons] at ih ⊢
    rw [ih, submit_answer_correct_count]
    simp only [correctSub]
    rcases Bool.eq_false_or_eq_true (hd.2.1 == some hd.1.correct_answer) with h | h <;>
      simp [h] <;> omega

theorem runSession_missed (st : Stats)
    (subs : List (Question × Option String × Nat)) :
    (runSession st subs).missed_questions.length
      = st.missed_questions.length + subs.countP (fun s => !(correctSub s)) := by
  induction subs generalizing st with
  | nil => simp [runSession]
  | cons hd tl ih =>
    simp only [runSession, List.foldl_cons, List.countP_cons] at ih ⊢
    rw [ih, submit_answer_missed_len]
    simp only [correctSub]
    rcases Bool.eq_false_or_eq_true (hd.2.1 == some hd.1.correct_answer) with h | h <;>
      simp [h] <;> omega

/-- C2: for every question and non-null user answer, `submit_answer` returns
`true` iff the answer is exactly string-equal to the question's
`correct_answer` (case- and whitespace-sensitive, no normalization); an
incorrect answer appends exactly the one record
`{question, user_answer, position}` to `missed_questions`, a correct answer
appends nothing. -/
theorem submit_answer_exact_string_match (stats : Stats) (q : Question)
    (s : String) (n : Nat) :
    ((submit_answer stats q (some s) n).2 = true ↔ s = q.correct_answer)
    ∧ ((submit_answer stats q (some s) n).2 = false →
        (submit_answer stats q (some s) n).1.missed_questions
          = stats.missed_questions
            ++ [{ question := q, user_answer := some s, question_number := n }])
    ∧ ((submit_answer stats q (some s) n).2 = true →
        (submit_answer stats q (some s) n).1.missed_questions
          = stats.missed_questions) := by
  by_cases h : s = q.correct_answer
  · subst h
    simp [submit_answer]
  · have hb : (some s == some q.correct_answer) = false := by
      simp only [beq_eq_false_iff_ne, ne_eq, Option.some.injEq]
      exact h
    simp [submit_answer, hb, h]

theorem submit_answer_exact_string_match_witness :
    ((submit_answer sampleStats sampleQuestion (some "A") 1).2 = true
        ↔ "A" = sampleQuestion.correct_answer)
    ∧ ((submit_answer sampleStats sampleQuestion (some "A") 1).2 = false →
        (submit_answer sampleStats sampleQuestion (some "A") 1).1.missed_questions
          = sampleStats.missed_questions
            ++ [{ question := sampleQuestion, user_answer := some "A",
                  question_number := 1 }])
    ∧ ((submit_answer sampleStats sampleQuestion (some "A") 1).2 = true →
        (submit_answer sampleStats sampleQuestion (some "A") 1).1.missed_questions
          = sampleStats.missed_questions) :=
  submit_answer_exact_string_match sampleStats sampleQuestion "A" 1

/-- C3: starting from freshly reset stats, a sequence of `k` submissions of
which `m` compare correct yields `total_questions = k`,
`correct_answers = m`, `missed_questions.length = k - m`; and every single
`submit_answer` call preserves the invariant
`total_questions = correct_answers + missed_questions.length` together with
`sum of asked over chapter_stats = total_questions`. -/
theorem submit_answer_counts_invariant (cn : String) (chs : List String)
    (subs : List (Question × Option String × Nat)) :
    (runSession (resetStats cn chs) subs).total_questions = subs.length
    ∧ (runSession (resetStats cn chs) subs).correct_answers
        = subs.countP correctSub
    ∧ (runSession (resetStats cn chs) subs).missed_questions.length
        = subs.length - subs.countP correctSub
    ∧ ∀ st : Stats, ∀ q : Question, ∀ a : Option String, ∀ n : Nat,
        (st.total_questions
            = st.correct_answers + st.missed_questions.length ∧
          sumAsked st.chapter_stats = st.total_questions) →
        ((submit_answer st q a n).1.total_questions
            = (submit_answer st q a n).1.correct_answers
              + (submit_answer st q a n).1.missed_questions.length ∧
          sumAsked (submit_answer st q a n).1.chapter_stats
            = (submit_answer st q a n).1.total_questions) := by
  refine ⟨?_, ?_, ?_, ?_⟩
  · rw [runSession_total]; simp [resetStats]
  · rw [runSession_correct]; simp [resetStats]
  · rw [runSession_missed]
    have h := countP_not_add_countP correctSub subs
    simp only [resetStats, List.length_nil]
    omega
  · intro st q a n ⟨h1, h2⟩
    have ht := submit_answer_total st q a n
    have hc := submit_answer_correct_count st q a n
    have hm := submit_answer_missed_len st q a n
    have ha := submit_answer_sumAsked st q a n
    rcases Bool.eq_false_or_eq_true (a == some q.correct_answer) with h | h <;>
      rw [h] at hc hm <;> simp at hc hm <;> constructor <;> omega

theorem submit_answer_counts_invariant_witness :
    (runSession (resetStats "Biology" ["Ch1", "Ch2"]) sampleSubs).total_questions = 2
    ∧ (runSession (resetStats "Biology" ["Ch1", "Ch2"]) sampleSubs).correct_answers = 1
    ∧ (runSession (resetStats "Biology" ["Ch1", "Ch2"]) sampleSubs).missed_questions.length
        = 1 :=
  ⟨(submit_answer_counts_invariant "Biology" ["Ch1", "Ch2"] sampleSubs).1,
   (submit_answer_counts_invariant "Biology" ["Ch1", "Ch2"] sampleSubs).2.1,
   (submit_answer_counts_invariant "Biology" ["Ch1", "Ch2"] sampleSubs).2.2.1⟩

/-- C4: `save_quiz_session` returns false and appends nothing iff
`total_questions = 0`; when `total_questions > 0` it returns true and appends
exactly one entry whose aggregate fields match the accumulator and whose
percentage is `correct_answers / total_questions * 100`; the division occurs
only in the guarded branch where `total_questions > 0`. -/
theorem save_quiz_session_spec (stats : Stats) (history : List HistoryEntry) :
    (stats.total_questions = 0 →
      save_quiz_session stats history = (history, false))
    ∧ (0 < stats.total_questions →
      ∃ e : HistoryEntry,
        save_quiz_session stats history = (history ++ [e], true)
        ∧ e.class_name = stats.class_name
        ∧ e.total_questions = stats.total_questions
        ∧ e.correct_answers = stats.correct_answers
        ∧ e.percentage
            = (stats.correct_answers : ℚ) / (stats.total_questions : ℚ) * 100
        ∧ e.missed_questions = stats.missed_questions.length
        ∧ e.chapter_stats = stats.chapter_stats
        ∧ e.selected_chapters = stats.selected_chapters) := by
  constructor
  · intro h
    simp [save_quiz_session, h]
  · intro h
    simp only [save_quiz_session, if_pos h]
    exact ⟨_, rfl, rfl, rfl, rfl, rfl, rfl, rfl, rfl⟩

theorem save_quiz_session_spec_witness :
    0 < answeredStats.total_questions ∧
    ∃ e : HistoryEntry,
      save_quiz_session answeredStats [] = ([e], true)
      ∧ e.class_name = answeredStats.class_name
      ∧ e.total_questions = answeredStats.total_questions
      ∧ e.correct_answers = answeredStats.correct_answers
      ∧ e.percentage
          = (answeredStats.correct_answers : ℚ)
            / (answeredStats.total_questions : ℚ) * 100
      ∧ e.missed_questions = answeredStats.missed_questions.length
      ∧ e.chapter_stats = answeredStats.chapter_stats
      ∧ e.selected_chapters = answeredStats.selected_chapters :=
  ⟨by decide, (save_quiz_session_spec answeredStats []).2 (by decide)⟩

/-- C10: `submit_answer` does not reject a null answer: with
`user_answer = none` it returns false, increments `total_questions` and the
question's chapter `asked` count, and appends one record with
`user_answer = none` to `missed_questions`. -/
theorem submit_answer_none_scored_incorrect (stats : Stats) (q : Question)
    (n : Nat) :
    (submit_answer stats q none n).2 = false
    ∧ (submit_answer stats q none n).1.total_questions
        = stats.total_questions + 1
    ∧ askedCount (submit_answer stats q none n).1.chapter_stats q.chapter
        = askedCount stats.chapter_stats q.chapter + 1
    ∧ (submit_answer stats q none n).1.missed_questions
        = stats.missed_questions
          ++ [{ question := q, user_answer := none, question_number := n }] := by
  refine ⟨rfl, rfl, askedCount_updateChapterStats stats.chapter_stats q.chapter _, ?_⟩
  simp [submit_answer]

theorem mem_collectQuestions_aux (cq : List (String × List Question))
    (sel : List String) (acc : List Question) (q : Question)
    (h : q ∈ sel.foldl
      (fun acc ch =>
        match List.lookup ch cq with
        | some qs => acc ++ qs
        | none => acc)
      acc) :
    q ∈ acc ∨ ∃ ch ∈ sel, ∃ l, List.lookup ch cq = some l ∧ q ∈ l := by
  induction sel generalizing acc with
  | nil => exact Or.inl h
  | cons hd tl ih =>
    simp only [List.foldl_cons] at h
    cases hlk : List.lookup hd cq with
    | none =>
      rw [hlk] at h
      rcases ih acc h with h1 | ⟨ch, hch, l, hl, hq⟩
      · exact Or.inl h1
      · exact Or.inr ⟨ch, List.mem_cons_of_mem _ hch, l, hl, hq⟩
    | some qs =>
      rw [hlk] at h
      rcases ih (acc ++ qs) h with h1 | ⟨ch, hch, l, hl, hq⟩
      · rcases List.mem_append.1 h1 with h2 | h2
        · exact Or.inl h2
        · exact Or.inr ⟨hd, List.mem_cons_self hd tl, qs, hlk, h2⟩
      · exact Or.inr ⟨ch, List.mem_cons_of_mem _ hch, l, hl, hq⟩

theorem mem_collectQuestions (cq : List (String × List Question))
    (sel : List String) (q : Question) (h : q ∈ collectQuestions sel cq) :
    ∃ ch ∈ sel, ∃ l, List.lookup ch cq = some l ∧ q ∈ l := by
  rcases mem_collectQuestions_aux cq sel [] q h with h1 | h1
  · cases h1
  · exact h1

/-- C1: for every pool, selection and count `k` with
`1 ≤ k ≤ size of the union of the selected chapters`, `start_quiz` succeeds
and returns exactly `k` questions, each drawn from a selected chapter,
without replacement (no duplicates when the pool has none); if the union is
empty it fails with the no-questions-available error. The shuffle is any
permutation of its input, as `random.shuffle` is. -/
theorem start_quiz_selection_spec (stats : Stats) (cn : String)
    (sel : List String) (cq : List (String × List Question))
    (shuffle : List Question → List Question)
    (hperm : ∀ l : List Question, (shuffle l).Perm l) :
    (∀ k : Nat, collectQuestions sel cq = [] →
      (start_quiz stats cn sel k cq shuffle).2
        = Except.error "No questions available for selected chapters.")
    ∧ (∀ k : Nat, 1 ≤ k → k ≤ (collectQuestions sel cq).length →
      ∃ qs : List Question,
        (start_quiz stats cn sel k cq shuffle).2 = Except.ok qs
        ∧ qs.length = k
        ∧ (∀ q ∈ qs, ∃ ch ∈ sel, ∃ l, List.lookup ch cq = some l ∧ q ∈ l)
        ∧ ((collectQuestions sel cq).Nodup → qs.Nodup)) := by
  constructor
  · intro k h
    simp [start_quiz, h]
  · intro k hk1 hk2
    have hne : collectQuestions sel cq ≠ [] := by
      intro h
      rw [h] at hk2
      simp at hk2
      omega
    have hemp : (collectQuestions sel cq).isEmpty = false := by
      rcases Bool.eq_false_or_eq_true (collectQuestions sel cq).isEmpty with h | h
      · exact absurd (List.isEmpty_iff.1 h) hne
      · exact h
    refine ⟨(shuffle (collectQuestions sel cq)).take k, ?_, ?_, ?_, ?_⟩
    · simp [start_quiz, hemp]
    · rw [List.length_take, (hperm _).length_eq]
      exact Nat.min_eq_left hk2
    · intro q hq
      exact mem_collectQuestions cq sel q
        (((hperm _).mem_iff).1 (List.mem_of_mem_take hq))
    · intro hnd
      exact (((hperm _).nodup_iff).2 hnd).sublist (List.take_sublist k _)

theorem start_quiz_selection_spec_witness :
    ∃ qs : List Question,
      (start_quiz sampleStats "Biology" ["Ch1", "Ch2"] 2 sampleChapters
        id).2 = Except.ok qs
      ∧ qs.length = 2
      ∧ (∀ q ∈ qs, ∃ ch ∈ ["Ch1", "Ch2"], ∃ l,
          List.lookup ch sampleChapters = some l ∧ q ∈ l)
      ∧ ((collectQuestions ["Ch1", "Ch2"] sampleChapters).Nodup → qs.Nodup) :=
  (start_quiz_selection_spec sampleStats "Biology" ["Ch1", "Ch2"]
    sampleChapters id (fun l => List.Perm.refl l)).2 2 (by decide) (by decide)

/-- C8 counterexample: with an accumulator holding `total_questions = 1`, a
failing `start_quiz` (empty chapter selection) does not leave the
accumulator unchanged — it resets it to zero. -/
theorem start_quiz_counterexample :
    (start_quiz answeredStats "Biology" [] 1 sampleChapters id).2
      = Except.error "No questions available for selected chapters."
    ∧ (start_quiz answeredStats "Biology" [] 1 sampleChapters id).1.total_questions
        ≠ answeredStats.total_questions := by
  constructor
  · rfl
  · decide

/-- C8 amended: when `start_quiz` fails because the union of questions for
the selected chapters is empty, it returns the no-questions-available error
and the accumulator is not unchanged but freshly reset: `total_questions`,
`correct_answers`, `chapter_stats` and `missed_questions` are zero/empty
(with the new class name and chapter selection installed), regardless of the
accumulator's prior value. -/
theorem start_quiz_failure_resets (stats : Stats) (cn : String)
    (sel : List String) (k : Nat) (cq : List (String × List Question))
    (shuffle : List Question → List Question)
    (h : collectQuestions sel cq = []) :
    start_quiz stats cn sel k cq shuffle
      = (resetStats cn sel,
         Except.error "No questions available for selected chapters.") := by
  simp [start_quiz, h]

theorem start_quiz_failure_resets_witness :
    start_quiz answeredStats "Biology" [] 1 sampleChapters id
      = (resetStats "Biology" [],
         Except.error "No questions available for selected chapters.") :=
  start_quiz_failure_resets answeredStats "Biology" [] 1 sampleChapters id rfl

theorem lookup_setMapping_self (m : List (Nat × List String)) (pos : Nat)
    (o : List String) :
    List.lookup pos (setMapping m pos o) = some o := by
  induction m with
  | nil => simp [setMapping, List.lookup]
  | cons hd tl ih =>
    obtain ⟨p, v⟩ := hd
    by_cases h : p = pos
    · subst h
      simp [setMapping, List.lookup]
    · have hb : (pos == p) = false := by
        refine beq_eq_false_iff_ne.2 ?_
        exact fun hc => h hc.symm
      simp [setMapping, if_neg h, List.lookup, hb, ih]

theorem lookup_setMapping_ne (m : List (Nat × List String)) (pos p : Nat)
    (o : List String) (hne : p ≠ pos) :
    List.lookup p (setMapping m pos o) = List.lookup p m := by
  have hb : (p == pos) = false := beq_eq_false_iff_ne.2 hne
  induction m with
  | nil => simp [setMapping, List.lookup, hb]
  | cons hd tl ih =>
    obtain ⟨p', v⟩ := hd
    by_cases h : p' = pos
    · subst h
      simp [setMapping, List.lookup, hb]
    · simp [setMapping, if_neg h, List.lookup, ih]

/-- C9 counterexample: with position 0 already cached (first display of
`sampleQuestion` under an identity shuffle stored `["B","C","D","A"]`), a
second display whose random shuffle happens to reverse the options shows a
different order and overwrites the cached entry — the cached order is
neither recomputed-only-on-first-view nor reused. -/
theorem display_options_counterexample :
    (display_question_options cachedMapping 0 sampleQuestion List.reverse).2
      ≠ ["B", "C", "D", "A"]
    ∧ (display_question_options cachedMapping 0 sampleQuestion List.reverse).1
      ≠ cachedMapping := by
  constructor
  · decide
  · decide

/-- C9 amended: `display_quiz_question` recomputes the option order with a
fresh shuffle on every display of a position and overwrites
`option_mapping[position]` with that fresh order (entries of other positions
are untouched); the order is not cached on first view, so navigating back to
a position can show a different option order. -/
theorem display_options_recomputed (m : List (Nat × List String)) (pos : Nat)
    (q : Question) (shuffle : List String → List String) :
    (display_question_options m pos q shuffle).2
      = shuffle (q.alternatives ++ [q.correct_answer])
    ∧ List.lookup pos (display_question_options m pos q shuffle).1
      = some (shuffle (q.alternatives ++ [q.correct_answer]))
    ∧ ∀ p : Nat, p ≠ pos →
        List.lookup p (display_question_options m pos q shuffle).1
          = List.lookup p m := by
  refine ⟨rfl, lookup_setMapping_self m pos _, ?_⟩
  intro p hp
  exact lookup_setMapping_ne m pos p _ hp

theorem display_options_recomputed_witness :
    (display_question_options cachedMapping 0 sampleQuestion List.reverse).2
      = List.reverse (sampleQuestion.alternatives
          ++ [sampleQuestion.correct_answer])
    ∧ List.lookup 0
        (display_question_options cachedMapping 0 sampleQuestion
          List.reverse).1
      = some (List.reverse (sampleQuestion.alternatives
          ++ [sampleQuestion.correct_answer])) :=
  ⟨(display_options_recomputed cachedMapping 0 sampleQuestion List.reverse).1,
   (display_options_recomputed cachedMapping 0 sampleQuestion
      List.reverse).2.1⟩

theorem mem_of_lookup_eq_some {row : Row} {f v : String}
    (h : List.lookup f row = some v) : (f, v) ∈ row := by
  induction row with
  | nil => cases h
  | cons hd tl ih =>
    obtain ⟨k, w⟩ := hd
    rcases Bool.eq_false_or_eq_true (f == k) with hb | hb
    · simp only [List.lookup, hb] at h
      obtain rfl : w = v := by
        cases h
        rfl
      obtain rfl : f = k := beq_iff_eq.1 hb
      exact List.mem_cons_self _ _
    · simp only [List.lookup, hb] at h
      exact List.mem_cons_of_mem _ (ih h)

theorem validRow_eq_false_of_rowEmpty {row : Row} (h : rowEmpty row = true) :
    validRow row = false := by
  have hblank : fieldBlank row "Chapter" = true := by
    unfold fieldBlank
    cases hlk : List.lookup "Chapter" row with
    | none => rfl
    | some v =>
      have hmem := mem_of_lookup_eq_some hlk
      have := List.all_eq_true.1 h _ hmem
      obtain rfl : v = "" := beq_iff_eq.1 this
      rfl
  rcases Bool.eq_false_or_eq_true (validRow row) with hv | hv
  · have := List.all_eq_true.1 hv "Chapter" (by decide)
    rw [hblank] at this
    cases this
  · exact hv

theorem processRows_eq_filter (rows : List Row) :
    processRows rows = (rows.filter (fun r => validRow r)).map mkQuestion := by
  induction rows with
  | nil => rfl
  | cons hd tl ih =>
    rcases Bool.eq_false_or_eq_true (rowEmpty hd) with he | he
    · have hv : validRow hd = false := validRow_eq_false_of_rowEmpty he
      simp [processRows, he, hv, List.filter_cons, ih]
    · cases hv : validRow hd <;>
        simp [processRows, he, hv, List.filter_cons, ih]

theorem firstSeenOrder_mem_aux (l acc : List String) (c : String) :
    c ∈ l.foldl (fun a x => if a.contains x then a else a ++ [x]) acc
      ↔ c ∈ acc ∨ c ∈ l := by
  induction l generalizing acc with
  | nil => simp
  | cons hd tl ih =>
    simp only [List.foldl_cons]
    by_cases h : acc.contains hd
    · rw [if_pos h, ih]
      have hmem : hd ∈ acc := List.elem_iff.1 h
      constructor
      · rintro (h1 | h1)
        · exact Or.inl h1
        · exact Or.inr (List.mem_cons_of_mem _ h1)
      · rintro (h1 | h1)
        · exact Or.inl h1
        · rcases List.mem_cons.1 h1 with rfl | h2
          · exact Or.inl hmem
          · exact Or.inr h2
    · rw [if_neg h, ih]
      simp only [List.mem_append, List.mem_singleton, List.mem_cons]
      tauto

theorem firstSeenOrder_mem (l : List String) (c : String) :
    c ∈ firstSeenOrder l ↔ c ∈ l := by
  rw [firstSeenOrder, firstSeenOrder_mem_aux]
  simp

theorem firstSeenOrder_nodup_aux (l acc : List String) (hacc : acc.Nodup) :
    (l.foldl (fun a x => if a.contains x then a else a ++ [x]) acc).Nodup := by
  induction l generalizing acc with
  | nil => exact hacc
  | cons hd tl ih =>
    simp only [List.foldl_cons]
    by_cases h : acc.contains hd
    · rw [if_pos h]
      exact ih acc hacc
    · rw [if_neg h]
      refine ih _ (List.nodup_append.2 ⟨hacc, List.nodup_singleton hd, ?_⟩)
      intro x hx hx'
      rw [List.mem_singleton] at hx'
      subst hx'
      exact h (List.elem_iff.2 hx)

theorem firstSeenOrder_nodup (l : List String) : (firstSeenOrder l).Nodup :=
  firstSeenOrder_nodup_aux l [] List.nodup_nil

theorem firstSeenOrder_append_singleton (l : List String) (c : String) :
    firstSeenOrder (l ++ [c])
      = if (firstSeenOrder l).contains c then firstSeenOrder l
        else firstSeenOrder l ++ [c] := by
  simp [firstSeenOrder, List.foldl_append]

theorem insertQuestion_map (ks : List String) (M : String → List Question)
    (q : Question) (hnd : ks.Nodup) :
    insertQuestion (ks.map (fun c => (c, M c))) q
      = if ks.contains q.chapter
        then ks.map
          (fun c => (c, if c = q.chapter then M c ++ [q] else M c))
        else ks.map (fun c => (c, M c)) ++ [(q.chapter, [q])] := by
  induction ks with
  | nil => simp [insertQuestion]
  | cons hd tl ih =>
    rcases List.nodup_cons.1 hnd with ⟨hmem, hnd'⟩
    by_cases h : hd = q.chapter
    · have hcont : (hd :: tl).contains q.chapter = true :=
        List.elem_iff.2 (List.mem_cons.2 (Or.inl h.symm))
      rw [if_pos hcont]
      simp only [List.map_cons, insertQuestion, if_pos h]
      congr 1
      refine List.map_congr_left ?_
      intro c hc
      have hqtl : q.chapter ∉ tl := h ▸ hmem
      have : c ≠ q.chapter := fun hce => hqtl (hce ▸ hc)
      rw [if_neg this]
    · simp only [List.map_cons, insertQuestion, if_neg h]
      rw [ih hnd']
      by_cases hc : tl.contains q.chapter = true
      · have hcont : (hd :: tl).contains q.chapter = true :=
          List.elem_iff.2 (List.mem_cons_of_mem _ (List.elem_iff.1 hc))
        rw [if_pos hc, if_pos hcont]
      · have hcont : ¬((hd :: tl).contains q.chapter = true) := by
          intro ht
          rcases List.mem_cons.1 (List.elem_iff.1 ht) with h1 | h1
          · exact h h1.symm
          · exact hc (List.elem_iff.2 h1)
        rw [if_neg hc, if_neg hcont]
        simp

theorem groupByChapter_append_singleton (l : List Question) (q : Question) :
    groupByChapter (l ++ [q]) = insertQuestion (groupByChapter l) q := by
  simp [groupByChapter, List.foldl_append]

/-- Full characterization of the grouping built by `load_csv`: the chapter
keys are the questions' chapters in first-seen order, and each chapter maps
to the subsequence of questions with that chapter, in their original
order. -/
theorem groupByChapter_eq (qs : List Question) :
    groupByChapter qs
      = (firstSeenOrder (qs.map (fun q => q.chapter))).map
          (fun c => (c, qs.filter (fun q => q.chapter == c))) := by
  induction qs using List.reverseRecOn with
  | nil => rfl
  | append_singleton l q ih =>
    rw [groupByChapter_append_singleton, ih,
      insertQuestion_map _ _ _ (firstSeenOrder_nodup _)]
    simp only [List.map_append, List.map_cons, List.map_nil]
    rw [firstSeenOrder_append_singleton]
    by_cases hc :
      (firstSeenOrder (l.map (fun q => q.chapter))).contains q.chapter = true
    · rw [if_pos hc, if_pos hc]
      refine List.map_congr_left ?_
      intro c hc'
      simp only [List.filter_append, List.filter_cons, List.filter_nil]
      by_cases h : c = q.chapter
      · subst h
        simp
      · have : (q.chapter == c) = false :=
          beq_eq_false_iff_ne.2 (fun hce => h hce.symm)
        simp [if_neg h, this]
    · rw [if_neg hc, if_neg hc, List.map_append]
      have hnm : q.chapter ∉ l.map (fun q => q.chapter) := by
        intro hm
        exact hc (List.elem_iff.2 ((firstSeenOrder_mem _ _).2 hm))
      congr 1
      · refine List.map_congr_left ?_
        intro c hc'
        have hne : c ≠ q.chapter := by
          intro hce
          subst hce
          exact hc (List.elem_iff.2 hc')
        simp only [List.filter_append, List.filter_cons, List.filter_nil]
        have : (q.chapter == c) = false :=
          beq_eq_false_iff_ne.2 (fun hce => hne hce.symm)
        simp [this]
      · have hfil : l.filter (fun x => x.chapter == q.chapter) = [] := by
          rw [List.filter_eq_nil_iff]
          intro a ha hba
          exact hnm (List.mem_map.2 ⟨a, ha, beq_iff_eq.1 hba⟩)
        simp [List.filter_append, List.filter_cons, hfil]

theorem totalQuestions_insertQuestion (m : List (String × List Question))
    (q : Question) :
    totalQuestions (insertQuestion m q) = totalQuestions m + 1 := by
  induction m with
  | nil => simp [insertQuestion, totalQuestions]
  | cons hd tl ih =>
    obtain ⟨c, l⟩ := hd
    by_cases h : c = q.chapter
    · simp [insertQuestion, h, totalQuestions]
      omega
    · simp only [insertQuestion, if_neg h, totalQuestions, List.map_cons,
        List.sum_cons]
      simp only [totalQuestions] at ih
      omega

theorem totalQuestions_groupByChapter (qs : List Question) :
    totalQuestions (groupByChapter qs) = qs.length := by
  induction qs using List.reverseRecOn with
  | nil => rfl
  | append_singleton l q ih =>
    rw [groupByChapter_append_singleton, totalQuestions_insertQuestion, ih]
    simp

/-- C5 counterexample: a CSV with all seven required columns and zero data
rows (so vacuously every row has non-blank required fields) does not succeed
with zero questions — `load_csv` fails with the no-valid-questions error. -/
theorem load_csv_counterexample :
    load_csv required_columns ([] : List Row)
      = Except.error LoadError.noValidQuestions := rfl

/-- C5 amended (N ≥ 1): for every CSV source with all seven required columns
and `N ≥ 1` rows each with a non-blank value in every required field,
`load_csv` succeeds and returns exactly the `N` converted (trimmed)
questions, grouped by chapter with first-seen chapter order and original
within-chapter order, with total question count `N`. -/
theorem load_csv_well_formed (fieldnames : List String) (rows : List Row)
    (hcols : required_columns.all (fun c => fieldnames.contains c) = true)
    (hrows : ∀ row ∈ rows, validRow row = true)
    (hne : rows ≠ []) :
    load_csv fieldnames rows
      = Except.ok (groupByChapter (rows.map mkQuestion))
    ∧ totalQuestions (groupByChapter (rows.map mkQuestion)) = rows.length
    ∧ groupByChapter (rows.map mkQuestion)
        = (firstSeenOrder ((rows.map mkQuestion).map (fun q => q.chapter))).map
            (fun c =>
              (c, (rows.map mkQuestion).filter (fun q => q.chapter == c))) := by
  have hp : processRows rows = rows.map mkQuestion := by
    rw [processRows_eq_filter]
    congr 1
    exact List.filter_eq_self.2 (fun a ha => by rw [hrows a ha])
  have hnempty : (rows.map mkQuestion).isEmpty = false := by
    cases rows with
    | nil => exact absurd rfl hne
    | cons hd tl => rfl
  refine ⟨?_, ?_, ?_⟩
  · simp only [load_csv, hcols, if_pos, hp, hnempty, Bool.false_eq_true,
      if_false]
  · rw [totalQuestions_groupByChapter, List.length_map]
  · exact groupByChapter_eq _

theorem load_csv_well_formed_witness :
    load_csv required_columns [sampleRow1, sampleRow2]
      = Except.ok (groupByChapter ([sampleRow1, sampleRow2].map mkQuestion))
    ∧ totalQuestions
        (groupByChapter ([sampleRow1, sampleRow2].map mkQuestion)) = 2
    ∧ groupByChapter ([sampleRow1, sampleRow2].map mkQuestion)
        = (firstSeenOrder
            (([sampleRow1, sampleRow2].map mkQuestion).map
              (fun q => q.chapter))).map
            (fun c =>
              (c, ([sampleRow1, sampleRow2].map mkQuestion).filter
                (fun q => q.chapter == c))) :=
  load_csv_well_formed required_columns [sampleRow1, sampleRow2]
    (by decide) (by decide) (by decide)

/-- C6: with all required columns present, a row that is entirely empty or
has a blank required field (i.e. fails `validRow`) is excluded from the
result without failing the load when some other row is valid; `load_csv`
fails with exactly the message "No valid questions found in CSV file." iff
zero valid rows remain. -/
theorem load_csv_row_skip (fieldnames : List String) (rows : List Row)
    (hcols : required_columns.all (fun c => fieldnames.contains c) = true) :
    ((∃ row ∈ rows, validRow row = true) →
      load_csv fieldnames rows
        = Except.ok (groupByChapter
            ((rows.filter (fun r => validRow r)).map mkQuestion)))
    ∧ ((∀ row ∈ rows, validRow row = false) →
      load_csv fieldnames rows = Except.error LoadError.noValidQuestions)
    ∧ (∀ row : Row, rowEmpty row = true → validRow row = false)
    ∧ loadErrorMessage LoadError.noValidQuestions
        = "No valid questions found in CSV file." := by
  refine ⟨?_, ?_, fun row h => validRow_eq_false_of_rowEmpty h, rfl⟩
  · rintro ⟨r, hr, hv⟩
    have hmem : mkQuestion r ∈ (rows.filter (fun r => validRow r)).map mkQuestion :=
      List.mem_map_of_mem _ (List.mem_filter.2 ⟨hr, hv⟩)
    have hnempty :
        ((rows.filter (fun r => validRow r)).map mkQuestion).isEmpty = false := by
      rcases Bool.eq_false_or_eq_true
        ((rows.filter (fun r => validRow r)).map mkQuestion).isEmpty with ht | ht
      · rw [List.isEmpty_iff.1 ht] at hmem
        cases hmem
      · exact ht
    simp only [load_csv, hcols, if_pos, processRows_eq_filter, hnempty,
      Bool.false_eq_true, if_false]
  · intro hall
    have hfil : rows.filter (fun r => validRow r) = [] :=
      List.filter_eq_nil_iff.2 (fun a ha => by rw [hall a ha]; exact Bool.false_ne_true)
    simp only [load_csv, hcols, if_pos, processRows_eq_filter, hfil,
      List.map_nil, List.isEmpty_nil, if_true]

theorem load_csv_row_skip_witness :
    load_csv required_columns [sampleRow1, blankRow]
      = Except.ok (groupByChapter
          (([sampleRow1, blankRow].filter (fun r => validRow r)).map
            mkQuestion)) :=
  (load_csv_row_skip required_columns [sampleRow1, blankRow] (by decide)).1
    ⟨sampleRow1, by decide, by decide⟩

/-- C7: a CSV whose header misses at least one required column fails with
the schema failure result carrying (and whose message enumerates) the
columns actually found. -/
theorem load_csv_schema_error (fieldnames : List String) (rows : List Row)
    (h : ∃ c ∈ required_columns, fieldnames.contains c = false) :
    load_csv fieldnames rows = Except.error (LoadError.schemaError fieldnames)
    ∧ loadErrorMessage (LoadError.schemaError fieldnames)
        = "CSV missing required columns. Found: ["
          ++ String.intercalate ", " fieldnames ++ "]" := by
  obtain ⟨c, hc, hf⟩ := h
  have hall :
      required_columns.all (fun c => fieldnames.contains c) = false := by
    rcases Bool.eq_false_or_eq_true
      (required_columns.all fun c => fieldnames.contains c) with ht | ht
    · have := List.all_eq_true.1 ht c hc
      rw [hf] at this
      cases this
    · exact ht
  exact ⟨by simp only [load_csv, hall, Bool.false_eq_true, if_false], rfl⟩

theorem load_csv_schema_error_witness :
    load_csv ["Chapter", "Question Text"] [sampleRow1]
      = Except.error (LoadError.schemaError ["Chapter", "Question Text"])
    ∧ loadErrorMessage (LoadError.schemaError ["Chapter", "Question Text"])
        = "CSV missing required columns. Found: ["
          ++ String.intercalate ", " ["Chapter", "Question Text"] ++ "]" :=
  load_csv_schema_error ["Chapter", "Question Text"] [sampleRow1]
    ⟨"Reasoning", by decide, by decide⟩

end QuizApp
